import Mathlib

/-!
Verification of the strategiz-core sandboxed execution subsystem
(`strategiz_execution/executor/{backtest.py, validator.py, python_executor.py}`).

Shallow embedding conventions:
* timestamps are `Nat` (the source only compares them with `<=`/`==`);
* prices, capital and P&L are `ℚ` (the source uses Python floats; every
  arithmetic operation used by the claims is exact on the inputs considered);
* Python `sorted(..., key=timestamp)` is a stable sort, embedded as
  `List.insertionSort` on the timestamp order;
* Python `int(x)` (truncation toward zero) is embedded as `pyInt`;
* Python dict results become structures; `dict.get(k, default)` on an
  optional field becomes `Option.getD`.

Fields of the source's result dictionaries that no claim mentions and that
are not exactly representable are omitted from the embedding and noted at
their structure: `sharpe_ratio` (real square root), `last_tested_at`
(wall clock), `test_period` (calendar string), `execution_time_ms`
(wall clock).
-/

namespace Strategiz

/-! ## Data model (backtest.py) -/

/-- A trading signal as emitted by a guest program: dict with keys
`timestamp`, `type`, `price`, optional `quantity`, `reason`. -/
structure Signal where
  timestamp : Nat
  type : String
  price : ℚ
  quantity : Option ℚ
  reason : String
  deriving DecidableEq

/-- One OHLCV market bar: dict with keys `timestamp`, `open`, `high`,
`low`, `close`, `volume`. -/
structure Bar where
  timestamp : Nat
  open_ : ℚ
  high : ℚ
  low : ℚ
  close : ℚ
  volume : ℚ
  deriving DecidableEq

/-- A matched BUY→SELL trade, as built by `BacktestCalculator._match_trades`
(backtest.py lines 186-201). -/
structure Trade where
  buy_timestamp : Nat
  sell_timestamp : Nat
  buy_price : ℚ
  sell_price : ℚ
  quantity : ℚ
  invested_amount : ℚ
  exit_amount : ℚ
  pnl : ℚ
  pnl_percent : ℚ
  win : Bool
  buy_reason : String
  sell_reason : String
  capital_before : ℚ
  capital_after : ℚ
  deriving DecidableEq

/-- One point of the equity curve (backtest.py `_build_equity_curve`);
`type` is one of `"initial"`, `"buy"`, `"sell"`, `"final"`. -/
structure EquityPoint where
  timestamp : Nat
  portfolioValue : ℚ
  type : String
  deriving DecidableEq

/-- The `open_position` sub-dict of the performance report
(backtest.py lines 119-126). -/
structure OpenPosition where
  entry_timestamp : Nat
  entry_price : ℚ
  current_price : ℚ
  unrealized_pnl : ℚ
  unrealized_pnl_percent : ℚ
  reason : String
  deriving DecidableEq

/-- The performance report returned by `BacktestCalculator.calculate`.
`start_date`/`end_date` are `none` where the source stores `''` (no bars).
Omitted source fields (see file header): `sharpe_ratio`, `last_tested_at`,
`test_period`. -/
structure Performance where
  total_return : ℚ
  total_pnl : ℚ
  win_rate : ℚ
  total_trades : Nat
  profitable_trades : Nat
  buy_count : Nat
  sell_count : Nat
  avg_win : ℚ
  avg_loss : ℚ
  profit_factor : ℚ
  max_drawdown : ℚ
  trades : List Trade
  open_position : Option OpenPosition
  equity_curve : List EquityPoint
  start_date : Option Nat
  end_date : Option Nat
  buy_and_hold_return : ℚ
  buy_and_hold_return_percent : ℚ
  outperformance : ℚ
  deriving DecidableEq

/-! ## Backtest engine (backtest.py) -/

/-- Python `int(x)`: truncation toward zero of an exact rational value
(`Rat.floor` is the computable floor; truncation flips the sign first when
the value is negative). -/
def pyInt (q : ℚ) : ℤ :=
  if 0 ≤ q then q.floor else -(-q).floor

/-- The timestamp order used by `sorted(signals, key=lambda x: x['timestamp'])`. -/
def byTimestamp (a b : Signal) : Prop :=
  a.timestamp ≤ b.timestamp

instance : DecidableRel byTimestamp := fun a b => Nat.decLe a.timestamp b.timestamp

instance : IsTotal Signal byTimestamp := ⟨fun a b => Nat.le_total a.timestamp b.timestamp⟩

instance : IsTrans Signal byTimestamp := ⟨fun _ _ _ => Nat.le_trans⟩

/-- Stable sort by timestamp (Python `sorted` is stable; so is insertion sort). -/
def sortByTimestamp (l : List Signal) : List Signal :=
  List.insertionSort byTimestamp l

/-- Build one trade from a matched BUY/SELL pair at the current available
capital (backtest.py lines 167-201): position size is
`int(available_capital / buy_price)` when the buy price is positive, else the
signal's own quantity (default 1); in both cases at least 1 share. -/
def mkTrade (buy sell : Signal) (available_capital : ℚ) : Trade :=
  let buy_price := buy.price
  let sell_price := sell.price
  let q0 : ℚ :=
    if 0 < buy_price then ((pyInt (available_capital / buy_price) : ℤ) : ℚ)
    else buy.quantity.getD 1
  let quantity := max q0 1
  let invested_amount := quantity * buy_price
  let exit_amount := quantity * sell_price
  let pnl := exit_amount - invested_amount
  { buy_timestamp := buy.timestamp
    sell_timestamp := sell.timestamp
    buy_price := buy_price
    sell_price := sell_price
    quantity := quantity
    invested_amount := invested_amount
    exit_amount := exit_amount
    pnl := pnl
    pnl_percent := (sell_price - buy_price) / buy_price * 100
    win := decide (0 < pnl)
    buy_reason := buy.reason
    sell_reason := sell.reason
    capital_before := available_capital
    capital_after := available_capital + pnl }

/-- The two-cursor matching loop of `_match_trades` (backtest.py lines
158-207), recursion on the SELL cursor: a SELL whose timestamp is not
strictly after the current BUY's is skipped; otherwise it closes that BUY
and both cursors advance, with the capital compounded by the trade's P&L. -/
def matchLoop (available_capital : ℚ) (buys : List Signal) : List Signal → List Trade
  | [] => []
  | s :: ss =>
    match buys with
    | [] => []
    | b :: bs =>
      if s.timestamp ≤ b.timestamp then
        matchLoop available_capital (b :: bs) ss
      else
        let t := mkTrade b s available_capital
        t :: matchLoop (available_capital + t.pnl) bs ss

/-- `BacktestCalculator._match_trades`: sort BUYs and SELLs by timestamp,
then run the matching loop starting from the initial capital. -/
def match_trades (initial_capital : ℚ) (buy_signals sell_signals : List Signal) : List Trade :=
  matchLoop initial_capital (sortByTimestamp buy_signals) (sortByTimestamp sell_signals)

/-- Equity-curve loop of `_calculate_max_drawdown` (backtest.py lines 287-297). -/
def drawdownLoop (equity peak max_dd : ℚ) : List Trade → ℚ
  | [] => max_dd
  | t :: ts =>
    let equity2 := equity + t.pnl
    let peak2 := if peak < equity2 then equity2 else peak
    let max_dd2 := if 0 < peak2 then max max_dd ((peak2 - equity2) / peak2 * 100) else max_dd
    drawdownLoop equity2 peak2 max_dd2 ts

/-- `BacktestCalculator._calculate_max_drawdown`. -/
def calculate_max_drawdown (initial_capital : ℚ) (trades : List Trade) : ℚ :=
  if trades = [] then 0
  else drawdownLoop initial_capital initial_capital 0 trades

/-- The metrics part of the report (`_calculate_metrics`, backtest.py
lines 211-274), minus the omitted `sharpe_ratio`. -/
structure Metrics where
  total_return : ℚ
  total_pnl : ℚ
  win_rate : ℚ
  total_trades : Nat
  profitable_trades : Nat
  buy_count : Nat
  sell_count : Nat
  avg_win : ℚ
  avg_loss : ℚ
  profit_factor : ℚ
  max_drawdown : ℚ
  trades : List Trade
  deriving DecidableEq

/-- `BacktestCalculator._calculate_metrics`. -/
def calculate_metrics (initial_capital : ℚ) (trades : List Trade)
    (buy_count sell_count : Nat) : Metrics :=
  if trades = [] then
    { total_return := 0, total_pnl := 0, win_rate := 0, total_trades := 0
      profitable_trades := 0, buy_count := buy_count, sell_count := sell_count
      avg_win := 0, avg_loss := 0, profit_factor := 0, max_drawdown := 0, trades := [] }
  else
    let total_pnl := (trades.map (fun t => t.pnl)).sum
    let total_return := total_pnl / initial_capital * 100
    let profitable_trades := (trades.filter (fun t => t.win)).length
    let win_rate := (profitable_trades : ℚ) / (trades.length : ℚ) * 100
    let winning_trades := (trades.filter (fun t => t.win)).map (fun t => t.pnl)
    let losing_trades := (trades.filter (fun t => !t.win)).map (fun t => t.pnl)
    let avg_win := if winning_trades = [] then 0 else winning_trades.sum / (winning_trades.length : ℚ)
    let avg_loss := if losing_trades = [] then 0 else losing_trades.sum / (losing_trades.length : ℚ)
    let gross_profit := if winning_trades = [] then 0 else winning_trades.sum
    let gross_loss := if losing_trades = [] then 0 else |losing_trades.sum|
    let profit_factor :=
      if 0 < gross_loss then gross_profit / gross_loss
      else if 0 < gross_profit then gross_profit else 0
    { total_return := total_return, total_pnl := total_pnl, win_rate := win_rate
      total_trades := trades.length, profitable_trades := profitable_trades
      buy_count := buy_count, sell_count := sell_count
      avg_win := avg_win, avg_loss := avg_loss, profit_factor := profit_factor
      max_drawdown := calculate_max_drawdown initial_capital trades, trades := trades }

/-- The per-trade point emission of `_build_equity_curve`'s for-loop
(backtest.py lines 373-387): a "buy" point at the equity before the trade
and a "sell" point at the equity after; returns the points and the final
equity. -/
def tradePoints (equity : ℚ) : List Trade → List EquityPoint × ℚ
  | [] => ([], equity)
  | t :: ts =>
    let after := equity + t.pnl
    let rest := tradePoints after ts
    (⟨t.buy_timestamp, equity, "buy"⟩ :: ⟨t.sell_timestamp, after, "sell"⟩ :: rest.1, rest.2)

/-- `BacktestCalculator._build_equity_curve`. -/
def build_equity_curve (initial_capital : ℚ) (trades : List Trade)
    (market_data : List Bar) : List EquityPoint :=
  match market_data with
  | [] => []
  | b0 :: brest =>
    let start_timestamp := b0.timestamp
    let initPt : EquityPoint := ⟨start_timestamp, initial_capital, "initial"⟩
    let end_timestamp := ((b0 :: brest).getLast (List.cons_ne_nil b0 brest)).timestamp
    match trades with
    | [] =>
      if end_timestamp ≠ start_timestamp then
        [initPt, ⟨end_timestamp, initial_capital, "final"⟩]
      else [initPt]
    | t :: ts =>
      let pts := tradePoints initial_capital (t :: ts)
      let curve := initPt :: pts.1
      let lastPt := curve.getLast (List.cons_ne_nil initPt pts.1)
      if lastPt.timestamp ≠ end_timestamp then
        curve ++ [⟨end_timestamp, pts.2, "final"⟩]
      else curve

/-- The BUY filter `s.get('type', '').upper() == 'BUY'` (backtest.py line 64). -/
def isBuySignal (s : Signal) : Bool :=
  s.type.toUpper == "BUY"

/-- The SELL filter `s.get('type', '').upper() == 'SELL'` (backtest.py line 65). -/
def isSellSignal (s : Signal) : Bool :=
  s.type.toUpper == "SELL"

/-- The open-position block of `calculate` (backtest.py lines 116-128). -/
def openPositionOf (buy_signals sell_signals : List Signal)
    (market_data : List Bar) : Option OpenPosition :=
  if sell_signals.length < buy_signals.length then
    match buy_signals.getLast? with
    | none => none
    | some last_buy =>
      let current_price :=
        match market_data.getLast? with
        | some lastBar => lastBar.close
        | none => last_buy.price
      some { entry_timestamp := last_buy.timestamp
             entry_price := last_buy.price
             current_price := current_price
             unrealized_pnl := (current_price - last_buy.price) * last_buy.quantity.getD 1
             unrealized_pnl_percent := (current_price - last_buy.price) / last_buy.price * 100
             reason := last_buy.reason }
  else none

/-- `BacktestCalculator._empty_performance` (backtest.py lines 436-462):
all-zero report with an empty trade list, empty equity curve and no open
position, independent of the capital and the bars. -/
def empty_performance : Performance :=
  { total_return := 0, total_pnl := 0, win_rate := 0, total_trades := 0
    profitable_trades := 0, buy_count := 0, sell_count := 0
    avg_win := 0, avg_loss := 0, profit_factor := 0, max_drawdown := 0
    trades := [], open_position := none, equity_curve := []
    start_date := none, end_date := none
    buy_and_hold_return := 0, buy_and_hold_return_percent := 0, outperformance := 0 }

/-- `BacktestCalculator.calculate` (backtest.py lines 21-132). -/
def calculate (initial_capital : ℚ) (signals : List Signal)
    (market_data : List Bar) : Performance :=
  if signals.isEmpty then empty_performance
  else
    let buy_signals := signals.filter isBuySignal
    let sell_signals := signals.filter isSellSignal
    let trades := match_trades initial_capital buy_signals sell_signals
    let m := calculate_metrics initial_capital trades buy_signals.length sell_signals.length
    let equity_curve := build_equity_curve initial_capital trades market_data
    let dates_and_bh :
        Option Nat × Option Nat × ℚ × ℚ × ℚ :=
      match market_data with
      | [] => (none, none, 0, 0, 0)
      | b0 :: brest =>
        let lastBar := (b0 :: brest).getLast (List.cons_ne_nil b0 brest)
        let first_close := b0.close
        let last_close := lastBar.close
        if 0 < first_close then
          let shares_bought := initial_capital / first_close
          let buy_hold_final_value := shares_bought * last_close
          let buy_hold_pnl := buy_hold_final_value - initial_capital
          let buy_hold_return_percent := (last_close - first_close) / first_close * 100
          (some b0.timestamp, some lastBar.timestamp,
           buy_hold_pnl, buy_hold_return_percent, m.total_return - buy_hold_return_percent)
        else (some b0.timestamp, some lastBar.timestamp, 0, 0, 0)
    { total_return := m.total_return, total_pnl := m.total_pnl, win_rate := m.win_rate
      total_trades := m.total_trades, profitable_trades := m.profitable_trades
      buy_count := m.buy_count, sell_count := m.sell_count
      avg_win := m.avg_win, avg_loss := m.avg_loss, profit_factor := m.profit_factor
      max_drawdown := m.max_drawdown, trades := m.trades
      open_position := openPositionOf buy_signals sell_signals market_data
      equity_curve := equity_curve
      start_date := dates_and_bh.1, end_date := dates_and_bh.2.1
      buy_and_hold_return := dates_and_bh.2.2.1
      buy_and_hold_return_percent := dates_and_bh.2.2.2.1
      outperformance := dates_and_bh.2.2.2.2 }

/-! ## Admission gate (validator.py) -/

/-- The AST nodes `CodeValidator.validate_python` inspects while walking the
parse tree: `ast.Import` (the alias names as written), `ast.ImportFrom`
(`node.module`, which Python may leave as `None` for relative imports),
`ast.Call` (the callee's identifier when the callee is a plain `ast.Name`,
else `none`), `ast.FunctionDef` (name and positional-argument count); every
other node kind is `other`. -/
inductive PyNode where
  | importNames (names : List String)
  | importFrom (module : Option String)
  | callName (func : Option String)
  | functionDef (name : String) (numArgs : Nat)
  | other
  deriving DecidableEq

/-- Result of `ast.parse`: a syntax error or the walked node list plus the
raw source text (used by the substring checks for warnings/suggestions). -/
inductive ParsedSource where
  | syntaxError (msg : String)
  | tree (nodes : List PyNode) (code : String)
  deriving DecidableEq

/-- The dict returned by `CodeValidator.validate_python`. -/
structure ValidationResult where
  valid : Bool
  errors : List String
  warnings : List String
  suggestions : List String
  deriving DecidableEq

/-- `CodeValidator.ALLOWED_IMPORTS` (validator.py lines 15-17). -/
def ALLOWED_IMPORTS : List String :=
  ["pandas", "numpy", "pandas_ta", "talib", "math", "datetime"]

/-- `CodeValidator.FORBIDDEN_IMPORTS` (validator.py lines 19-22). -/
def FORBIDDEN_IMPORTS : List String :=
  ["os", "sys", "subprocess", "socket", "requests", "urllib",
   "pickle", "shelve", "multiprocessing", "threading"]

/-- `CodeValidator.FORBIDDEN_FUNCTIONS` (validator.py lines 24-27). -/
def FORBIDDEN_FUNCTIONS : List String :=
  ["eval", "exec", "compile", "__import__", "open", "input",
   "breakpoint", "help", "vars", "dir", "globals", "locals"]

/-- Does the haystack start with the needle? (helper for `strContains`). -/
def charsStartWith : List Char → List Char → Bool
  | _, [] => true
  | [], _ :: _ => false
  | a :: as, b :: bs => a == b && charsStartWith as bs

/-- Does the needle occur contiguously in the haystack? -/
def charsContain : List Char → List Char → Bool
  | [], needle => needle.isEmpty
  | h :: rest, needle => charsStartWith (h :: rest) needle || charsContain rest needle

/-- Python `needle in haystack` on strings. -/
def strContains (haystack needle : String) : Bool :=
  charsContain haystack.data needle.data

/-- Per-alias handling of an `ast.Import` node (validator.py lines 60-64). -/
def nameStep (acc : List String × List String) (nm : String) : List String × List String :=
  if nm ∈ FORBIDDEN_IMPORTS then (acc.1 ++ ["Forbidden import: " ++ nm], acc.2)
  else if nm ∈ ALLOWED_IMPORTS then acc
  else (acc.1, acc.2 ++ ["Unrecognized import: " ++ nm])

/-- Per-node handling of the first tree walk (validator.py lines 58-76). -/
def scanStep (acc : List String × List String) (n : PyNode) : List String × List String :=
  match n with
  | .importNames names => names.foldl nameStep acc
  | .importFrom module =>
    match module with
    | some m =>
      if m ∈ FORBIDDEN_IMPORTS then (acc.1 ++ ["Forbidden import: " ++ m], acc.2)
      else if m ∈ ALLOWED_IMPORTS then acc
      else (acc.1, acc.2 ++ ["Unrecognized import: " ++ m])
    | none => (acc.1, acc.2 ++ ["Unrecognized import: None"])
  | .callName func =>
    match func with
    | some f =>
      if f ∈ FORBIDDEN_FUNCTIONS then (acc.1 ++ ["Forbidden function: " ++ f ++ "()"], acc.2)
      else acc
    | none => acc
  | _ => acc

/-- The first tree walk of `validate_python` (validator.py lines 58-76):
forbidden/unrecognized imports and forbidden function calls, accumulated
as (errors, warnings) in node order. -/
def importCallScan (nodes : List PyNode) : List String × List String :=
  nodes.foldl scanStep ([], [])

/-- Per-node handling of the second tree walk (validator.py lines 79-89). -/
def stratStep (acc : List String × Bool) (n : PyNode) : List String × Bool :=
  match n with
  | .functionDef name numArgs =>
    if name = "strategy" then
      (acc.1 ++ (if numArgs ≠ 1 then ["strategy() must take exactly 1 argument (data)"] else []),
       true)
    else acc
  | _ => acc

/-- The second tree walk (validator.py lines 79-89): arity errors for
`strategy` definitions, and whether one was found. -/
def strategyScan (nodes : List PyNode) : List String × Bool :=
  nodes.foldl stratStep ([], false)

/-- `CodeValidator.validate_python` (validator.py lines 29-108). -/
def validate_python : ParsedSource → ValidationResult
  | .syntaxError msg =>
    { valid := false, errors := ["Syntax error: " ++ msg], warnings := [], suggestions := [] }
  | .tree nodes code =>
    let scan := importCallScan nodes
    let strat := strategyScan nodes
    let errors := scan.1 ++ strat.1 ++
      (if strat.2 then [] else ["Missing required function: def strategy(data)"])
    let warnings := scan.2 ++
      (if strContains code "SYMBOL" then [] else ["Consider defining SYMBOL constant"])
    let suggestions :=
      (if !strContains code "pandas" && !strContains code "pd" then
        ["Consider using pandas for data manipulation"] else []) ++
      (if !strContains code "ta." && !strContains code "pandas_ta" then
        ["Consider using pandas-ta for technical indicators"] else [])
    { valid := errors.length == 0, errors := errors
      warnings := warnings, suggestions := suggestions }

/-! ## Sandboxed execution engine (python_executor.py)

The executor spawns one `multiprocessing.Process` per call and waits on a
one-shot queue with a deadline.  The embedding makes the environment's
choices explicit: the abstract type `α` of compiled artifacts, the
fingerprint function, the restricted compiler, the guest behavior, and a
`WaitOutcome` describing how the wait on the isolation process ends.  Two
ghost observations are returned alongside the results so theorems can speak
about the claims: the cache state when the call returns and whether the
compile step ran (child), and the process state plus the termination
actions issued (parent). -/

/-- The dict the child puts on the result queue
(`_execute_strategy_in_process`). -/
structure ChildMessage where
  success : Bool
  error : Option String
  signals : List Signal
  indicators : List (String × List ℚ)
  deriving DecidableEq

/-- How the guest program behaves once its (compiled) code is executed in
the restricted namespace: no `strategy` callable is defined, the run raises,
or it completes having populated `signals`/`indicators`. -/
inductive GuestOutcome where
  | noStrategyFn
  | runtimeError (msg : String)
  | ok (signals : List Signal) (indicators : List (String × List ℚ))
  deriving DecidableEq

/-- Result of `compile_restricted`: diagnostics or a compiled artifact. -/
inductive CompileOutcome (α : Type) where
  | errors (msgs : List String)
  | ok (artifact : α)
  deriving DecidableEq

/-- The compiled-artifact cache `self._code_cache`: a dict keyed by the md5
fingerprint of the source text. -/
abbrev Cache (α : Type) := List (String × α)

/-- Dict lookup `code_hash in code_cache` / `code_cache[code_hash]`. -/
def cacheLookup {α : Type} (cache : Cache α) (key : String) : Option α :=
  match cache.find? (fun e => e.1 == key) with
  | some e => some e.2
  | none => none

/-- Python `"; ".join(msgs)`. -/
def joinSemicolon : List String → String
  | [] => ""
  | [m] => m
  | m :: ms => m ++ "; " ++ joinSemicolon ms

/-- Lines 79-108 of python_executor.py: run the compiled code, call
`strategy(df)`, and put the outcome on the queue; any exception is caught
into a failure message with empty `signals`/`indicators`. -/
def runStrategy (run : GuestOutcome) : ChildMessage :=
  match run with
  | .noStrategyFn =>
    { success := false, error := some "No strategy function found", signals := [], indicators := [] }
  | .runtimeError msg =>
    { success := false, error := some ("Execution error: " ++ msg), signals := [], indicators := [] }
  | .ok signals indicators =>
    { success := true, error := none, signals := signals, indicators := indicators }

/-- `_execute_strategy_in_process` (python_executor.py lines 32-108): hash
the source, consult the cache, compile on a miss (fatal on diagnostics),
then execute.  Returns the queued message, the cache as it stands when the
child returns, and a ghost flag recording whether the compile step ran.
The source never writes `code_cache[code_hash]` on the miss path (lines
58-76), so the returned cache is the input cache in every branch; moreover
the parent passed this dict into the child process by pickling, so even a
write would not reach the parent's copy. -/
def execute_strategy_in_process {α : Type} (md5 : String → String)
    (compile_restricted : String → CompileOutcome α) (run : α → GuestOutcome)
    (code : String) (code_cache : Cache α) : ChildMessage × Cache α × Bool :=
  let code_hash := md5 code
  match cacheLookup code_cache code_hash with
  | some artifact => (runStrategy (run artifact), code_cache, false)
  | none =>
    match compile_restricted code with
    | .errors msgs =>
      ({ success := false
         error := some ("Compilation errors: " ++ joinSemicolon msgs)
         signals := [], indicators := [] },
       code_cache, true)
    | .ok artifact => (runStrategy (run artifact), code_cache, true)

/-- State of the isolation process as observed by the parent. -/
inductive ProcState where
  | running
  | exited
  | terminatedGracefully
  | killed
  | unknown
  deriving DecidableEq

/-- Termination actions the parent can issue on the isolation process
(python_executor.py lines 274-283). -/
inductive KillAction where
  | terminate
  | joinGrace
  | kill
  | joinFinal
  deriving DecidableEq

/-- How the parent's wait on the isolation process ends:
the process delivered the child message and exited; it exited without a
queued result; it was still alive when `timeout` elapsed (with whether it
would survive the graceful `terminate()` and 1s grace join); or the
parent's own try-block raised. -/
inductive WaitOutcome where
  | completedWithResult
  | completedNoResult
  | stillAliveAtTimeout (survivesTerminate : Bool)
  | parentError (msg : String)
  deriving DecidableEq

/-- The dict returned by `PythonExecutor.execute`; `execution_time_ms`
(wall clock) and `logs` (always `[]` in the source) are omitted. -/
structure ExecResult where
  success : Bool
  error : Option String
  signals : List Signal
  indicators : List (String × List ℚ)
  deriving DecidableEq

/-- The timeout error string of python_executor.py line 288. -/
def timeoutMessage (timeout : Nat) : String :=
  "Execution timeout (" ++ toString timeout ++ "s) - strategy was forcefully terminated"

/-- The timeout branch of `execute` (python_executor.py lines 270-293):
`terminate()`, `join(timeout=1)`, and — if the process is still alive —
`kill()` and a final `join()`.  Returns the actions issued and the
resulting process state; `kill()` is unconditional and always succeeds. -/
def timeoutShutdown (survivesTerminate : Bool) : List KillAction × ProcState :=
  if survivesTerminate then
    ([.terminate, .joinGrace, .kill, .joinFinal], .killed)
  else
    ([.terminate, .joinGrace], .terminatedGracefully)

/-- `PythonExecutor.execute` (python_executor.py lines 229-323).  Returns
the result dict plus ghost observations: the final process state, the
termination actions issued, and the parent's cache after the call (the
child receives a pickled copy, so the parent's cache is unchanged). -/
def execute {α : Type} (md5 : String → String)
    (compile_restricted : String → CompileOutcome α) (run : α → GuestOutcome)
    (code : String) (code_cache : Cache α) (timeout : Nat) (wait : WaitOutcome) :
    ExecResult × ProcState × List KillAction × Cache α :=
  match wait with
  | .stillAliveAtTimeout survives =>
    let shutdown := timeoutShutdown survives
    ({ success := false, error := some (timeoutMessage timeout)
       signals := [], indicators := [] },
     shutdown.2, shutdown.1, code_cache)
  | .completedWithResult =>
    let child := execute_strategy_in_process md5 compile_restricted run code code_cache
    ({ success := child.1.success, error := child.1.error
       signals := child.1.signals, indicators := child.1.indicators },
     .exited, [], code_cache)
  | .completedNoResult =>
    ({ success := false
       error := some "Strategy execution failed - process terminated unexpectedly"
       signals := [], indicators := [] },
     .exited, [], code_cache)
  | .parentError msg =>
    ({ success := false, error := some ("Execution error: " ++ msg)
       signals := [], indicators := [] },
     .unknown, [], code_cache)

/-! ## Helper lemmas about the matching loop -/

/-- The identity of a signal as copied into a trade: timestamp, price, reason. -/
def sigKey (s : Signal) : Nat × ℚ × String :=
  (s.timestamp, s.price, s.reason)

/-- The BUY-side identity recorded in a trade. -/
def tradeBuyKey (t : Trade) : Nat × ℚ × String :=
  (t.buy_timestamp, t.buy_price, t.buy_reason)

/-- The SELL-side identity recorded in a trade. -/
def tradeSellKey (t : Trade) : Nat × ℚ × String :=
  (t.sell_timestamp, t.sell_price, t.sell_reason)

theorem tradeBuyKey_mkTrade (b s : Signal) (c : ℚ) : tradeBuyKey (mkTrade b s c) = sigKey b := rfl

theorem tradeSellKey_mkTrade (b s : Signal) (c : ℚ) : tradeSellKey (mkTrade b s c) = sigKey s := rfl

/-- The BUY signals consumed by the matching loop are exactly the first
`n` of the BUY list, where `n` is the number of trades formed: every trade
closes the earliest still-unmatched BUY. -/
theorem matchLoop_buy_keys :
    ∀ (sells buys : List Signal) (c : ℚ),
      (matchLoop c buys sells).map tradeBuyKey
        = (buys.take (matchLoop c buys sells).length).map sigKey := by
  intro sells
  induction sells with
  | nil => intro buys c; cases buys <;> simp [matchLoop]
  | cons s ss ih =>
    intro buys c
    cases buys with
    | nil => simp [matchLoop]
    | cons b bs =>
      by_cases h : s.timestamp ≤ b.timestamp
      · simp only [matchLoop, if_pos h]
        exact ih (b :: bs) c
      · simp only [matchLoop, if_neg h, List.map_cons, List.length_cons, List.take_succ_cons]
        rw [tradeBuyKey_mkTrade, ih bs (c + (mkTrade b s c).pnl)]

/-- The SELL signals consumed by the matching loop form a sublist of the
SELL list: every SELL closes at most one BUY. -/
theorem matchLoop_sell_keys_sublist :
    ∀ (sells buys : List Signal) (c : ℚ),
      ((matchLoop c buys sells).map tradeSellKey).Sublist (sells.map sigKey) := by
  intro sells
  induction sells with
  | nil => intro buys c; cases buys <;> simp [matchLoop]
  | cons s ss ih =>
    intro buys c
    cases buys with
    | nil => simp [matchLoop]
    | cons b bs =>
      by_cases h : s.timestamp ≤ b.timestamp
      · simpa only [matchLoop, if_pos h, List.map_cons] using (ih (b :: bs) c).cons (sigKey s)
      · simp only [matchLoop, if_neg h, List.map_cons, tradeSellKey_mkTrade]
        exact (ih bs (c + (mkTrade b s c).pnl)).cons₂ (sigKey s)

/-- Per-trade facts that hold for every trade the loop emits: the capital
chain step, the minimum position size, and strict BUY-before-SELL. -/
theorem matchLoop_mem :
    ∀ (sells buys : List Signal) (c : ℚ) (t : Trade), t ∈ matchLoop c buys sells →
      t.capital_after = t.capital_before + t.pnl ∧ (1 : ℚ) ≤ t.quantity
        ∧ t.buy_timestamp < t.sell_timestamp := by
  intro sells
  induction sells with
  | nil => intro buys c t ht; cases buys <;> simp [matchLoop] at ht
  | cons s ss ih =>
    intro buys c t ht
    cases buys with
    | nil => simp [matchLoop] at ht
    | cons b bs =>
      by_cases h : s.timestamp ≤ b.timestamp
      · rw [matchLoop, if_pos h] at ht
        exact ih (b :: bs) c t ht
      · rw [matchLoop, if_neg h] at ht
        rcases List.mem_cons.mp ht with rfl | ht'
        · refine ⟨rfl, le_max_right _ 1, ?_⟩
          exact Nat.lt_of_not_le h
        · exact ih bs (c + (mkTrade b s c).pnl) t ht'

/-- The first trade the loop emits starts from the capital it was given. -/
theorem matchLoop_head_capital :
    ∀ (sells buys : List Signal) (c : ℚ) (t : Trade),
      (matchLoop c buys sells).head? = some t → t.capital_before = c := by
  intro sells
  induction sells with
  | nil => intro buys c t ht; cases buys <;> simp [matchLoop] at ht
  | cons s ss ih =>
    intro buys c t ht
    cases buys with
    | nil => simp [matchLoop] at ht
    | cons b bs =>
      by_cases h : s.timestamp ≤ b.timestamp
      · rw [matchLoop, if_pos h] at ht
        exact ih (b :: bs) c t ht
      · rw [matchLoop, if_neg h] at ht
        simp only [List.head?_cons, Option.some.injEq] at ht
        subst ht
        rfl

/-- Consecutive trades chain their capital: each trade starts from the
previous trade's `capital_after`. -/
theorem matchLoop_chain :
    ∀ (sells buys : List Signal) (c : ℚ),
      List.Chain' (fun a b => b.capital_before = a.capital_after) (matchLoop c buys sells) := by
  intro sells
  induction sells with
  | nil => intro buys c; cases buys <;> simp [matchLoop]
  | cons s ss ih =>
    intro buys c
    cases buys with
    | nil => simp [matchLoop]
    | cons b bs =>
      by_cases h : s.timestamp ≤ b.timestamp
      · rw [matchLoop, if_pos h]
        exact ih (b :: bs) c
      · rw [matchLoop, if_neg h]
        refine List.chain'_cons'.mpr ⟨?_, ih bs (c + (mkTrade b s c).pnl)⟩
        intro y hy
        have := matchLoop_head_capital ss bs (c + (mkTrade b s c).pnl) y hy
        simpa [mkTrade] using this

/-- The loop forms at most one trade per SELL signal. -/
theorem matchLoop_length_le :
    ∀ (sells buys : List Signal) (c : ℚ), (matchLoop c buys sells).length ≤ sells.length := by
  intro sells
  induction sells with
  | nil => intro buys c; cases buys <;> simp [matchLoop]
  | cons s ss ih =>
    intro buys c
    cases buys with
    | nil => simp [matchLoop]
    | cons b bs =>
      by_cases h : s.timestamp ≤ b.timestamp
      · rw [matchLoop, if_pos h]
        exact Nat.le_succ_of_le (ih (b :: bs) c)
      · rw [matchLoop, if_neg h]
        simpa using Nat.succ_le_succ (ih bs (c + (mkTrade b s c).pnl))

/-! ## Concrete inputs used by witnesses and counterexamples -/

/-- BUY at t=1, price 100. -/
def buySig1 : Signal := ⟨1, "BUY", 100, none, ""⟩

/-- SELL at t=2, price 105. -/
def sellSig2 : Signal := ⟨2, "SELL", 105, none, ""⟩

/-- BUY at t=3, price 110. -/
def buySig3 : Signal := ⟨3, "BUY", 110, none, ""⟩

/-- SELL at t=4, price 120. -/
def sellSig4 : Signal := ⟨4, "SELL", 120, none, ""⟩

/-- Two flat bars at t=1 (close 100) and t=2 (close 110). -/
def twoBars : List Bar := [⟨1, 100, 100, 100, 100, 0⟩, ⟨2, 110, 110, 110, 110, 0⟩]

theorem int_floor_eq_rat_floor (q : ℚ) : ⌊q⌋ = q.floor := rfl

/-- The matched single trade on the one-BUY/one-SELL concrete input, left
symbolic (no rational arithmetic needed). -/
theorem match_trades_single :
    match_trades 10000 [buySig1] [sellSig2] = [mkTrade buySig1 sellSig2 10000] := by
  simp [match_trades, sortByTimestamp, List.insertionSort, List.orderedInsert, matchLoop,
    byTimestamp, buySig1, sellSig2]

/-- C4. Compounding position sizing: on BUYs at t=1 (price 100), t=3
(price 110) and SELLs at t=2 (price 105), t=4 (price 120) with initial
capital 10000, the engine pairs (t1→t2) then (t3→t4), sizes the first trade
at floor(10000/100)=100 shares (P&L 500) and the second from the
compounded 10500 at floor(10500/110)=95 shares (P&L 950); in general the
quantity is floor(available_capital / buy_price) with a minimum of one
share, and the capital offered to the next pair is increased by the trade's
P&L. -/
theorem compounding_position_sizing :
    ((match_trades 10000 [buySig1, buySig3] [sellSig2, sellSig4]).map
        (fun t => (t.buy_timestamp, t.sell_timestamp, t.quantity, t.pnl,
                   t.capital_before, t.capital_after))
      = [(1, 2, 100, 500, 10000, 10500), (3, 4, 95, 950, 10500, 11450)])
    ∧ (∀ (b s : Signal) (c : ℚ), 0 < b.price →
        (mkTrade b s c).quantity = max ((⌊c / b.price⌋ : ℤ) : ℚ) 1)
    ∧ (∀ (c : ℚ) (b s : Signal) (bs ss : List Signal), ¬ s.timestamp ≤ b.timestamp →
        matchLoop c (b :: bs) (s :: ss)
          = mkTrade b s c :: matchLoop (c + (mkTrade b s c).pnl) bs ss) := by
  refine ⟨?_, ?_, ?_⟩
  · norm_num [match_trades, sortByTimestamp, List.insertionSort, List.orderedInsert, byTimestamp,
      matchLoop, mkTrade, pyInt, Rat.floor, buySig1, sellSig2, buySig3, sellSig4]
  · intro b s c h
    simp only [mkTrade, if_pos h]
    by_cases h0 : 0 ≤ c / b.price
    · rw [pyInt, if_pos h0, ← int_floor_eq_rat_floor]
    · rw [pyInt, if_neg h0]
      push_neg at h0
      have hfl : ⌊c / b.price⌋ ≤ 0 := by
        calc ⌊c / b.price⌋ ≤ ⌊(0 : ℚ)⌋ := Int.floor_le_floor (le_of_lt h0)
        _ = 0 := by norm_num
      have h1 : ((⌊c / b.price⌋ : ℤ) : ℚ) ≤ 1 := by
        have : ((⌊c / b.price⌋ : ℤ) : ℚ) ≤ 0 := by exact_mod_cast hfl
        linarith
      have hfl2 : 0 ≤ (-(c / b.price)).floor := by
        rw [← int_floor_eq_rat_floor]
        exact Int.floor_nonneg.mpr (by linarith)
      have h2 : ((-(-(c / b.price)).floor : ℤ) : ℚ) ≤ 1 := by
        have : ((-(-(c / b.price)).floor : ℤ) : ℚ) ≤ 0 := by exact_mod_cast Int.neg_nonpos_of_nonneg hfl2
        linarith
      rw [max_eq_right h2, max_eq_right h1]
  · intro c b s bs ss h
    simp only [matchLoop, if_neg h]

/-- C4 witness: the sizing rule and the one-step compounding unfolding of
the loop, instantiated on the concrete first pair. -/
theorem compounding_position_sizing_witness :
    (0 : ℚ) < buySig1.price
    ∧ (mkTrade buySig1 sellSig2 10000).quantity
        = max ((⌊(10000 : ℚ) / buySig1.price⌋ : ℤ) : ℚ) 1
    ∧ ¬ sellSig2.timestamp ≤ buySig1.timestamp
    ∧ matchLoop 10000 [buySig1] [sellSig2]
        = mkTrade buySig1 sellSig2 10000
          :: matchLoop (10000 + (mkTrade buySig1 sellSig2 10000).pnl) [] [] := by
  have h1 : (0 : ℚ) < buySig1.price := by norm_num [buySig1]
  have h2 : ¬ sellSig2.timestamp ≤ buySig1.timestamp := by decide
  exact ⟨h1, compounding_position_sizing.2.1 buySig1 sellSig2 10000 h1, h2,
         compounding_position_sizing.2.2 10000 buySig1 sellSig2 [] [] h2⟩

/-- C5. Greedy pairing: a SELL at or before the current BUY is skipped
(cursor advance, no trade); each trade closes the earliest still-unmatched
BUY (the trades' BUY sides are exactly the first `n` sorted BUYs) strictly
after its BUY; the trades' SELL sides form a sublist of the sorted SELLs
(each SELL closes at most one BUY); and the trade list is chronological on
both sides. -/
theorem greedy_pairing (initial_capital : ℚ) (buy_signals sell_signals : List Signal) :
    (∀ (c : ℚ) (b s : Signal) (bs ss : List Signal), s.timestamp ≤ b.timestamp →
        matchLoop c (b :: bs) (s :: ss) = matchLoop c (b :: bs) ss)
    ∧ (∀ t ∈ match_trades initial_capital buy_signals sell_signals,
        t.buy_timestamp < t.sell_timestamp)
    ∧ (match_trades initial_capital buy_signals sell_signals).map tradeBuyKey
        = ((sortByTimestamp buy_signals).take
            (match_trades initial_capital buy_signals sell_signals).length).map sigKey
    ∧ ((match_trades initial_capital buy_signals sell_signals).map tradeSellKey).Sublist
        ((sortByTimestamp sell_signals).map sigKey)
    ∧ ((match_trades initial_capital buy_signals sell_signals).map
        (fun t => t.buy_timestamp)).Pairwise (· ≤ ·)
    ∧ ((match_trades initial_capital buy_signals sell_signals).map
        (fun t => t.sell_timestamp)).Pairwise (· ≤ ·) := by
  have hsortB : List.Sorted byTimestamp (sortByTimestamp buy_signals) :=
    List.sorted_insertionSort byTimestamp buy_signals
  have hsortS : List.Sorted byTimestamp (sortByTimestamp sell_signals) :=
    List.sorted_insertionSort byTimestamp sell_signals
  refine ⟨?_, ?_, ?_, ?_, ?_, ?_⟩
  · intro c b s bs ss h
    simp only [matchLoop, if_pos h]
  · intro t ht
    exact (matchLoop_mem (sortByTimestamp sell_signals) (sortByTimestamp buy_signals)
      initial_capital t ht).2.2
  · exact matchLoop_buy_keys (sortByTimestamp sell_signals) (sortByTimestamp buy_signals)
      initial_capital
  · exact matchLoop_sell_keys_sublist (sortByTimestamp sell_signals)
      (sortByTimestamp buy_signals) initial_capital
  · have hkeys := matchLoop_buy_keys (sortByTimestamp sell_signals)
      (sortByTimestamp buy_signals) initial_capital
    show ((matchLoop initial_capital (sortByTimestamp buy_signals)
        (sortByTimestamp sell_signals)).map (fun t => t.buy_timestamp)).Pairwise (· ≤ ·)
    have hmap : (matchLoop initial_capital (sortByTimestamp buy_signals)
        (sortByTimestamp sell_signals)).map (fun t => t.buy_timestamp)
        = (((sortByTimestamp buy_signals).take
            (matchLoop initial_capital (sortByTimestamp buy_signals)
              (sortByTimestamp sell_signals)).length).map sigKey).map
          (fun k => k.1) := by
      rw [← hkeys, List.map_map]
      rfl
    rw [hmap, List.map_map]
    have hpw : ((sortByTimestamp buy_signals).take
        (matchLoop initial_capital (sortByTimestamp buy_signals)
          (sortByTimestamp sell_signals)).length).Pairwise byTimestamp :=
      List.Pairwise.sublist (List.take_sublist _ _) hsortB
    exact List.pairwise_map.mpr hpw
  · have hsub := matchLoop_sell_keys_sublist (sortByTimestamp sell_signals)
      (sortByTimestamp buy_signals) initial_capital
    have hsub2 := List.Sublist.map (fun k : Nat × ℚ × String => k.1) hsub
    rw [List.map_map, List.map_map] at hsub2
    have hpw : ((sortByTimestamp sell_signals).map (fun s => s.timestamp)).Pairwise (· ≤ ·) :=
      List.pairwise_map.mpr hsortS
    exact List.Pairwise.sublist hsub2 hpw

/-- C5 witness: the skip rule at a SELL no later than the BUY, and strict
BUY-before-SELL on the concrete matched trade. -/
theorem greedy_pairing_witness :
    matchLoop 10000 [buySig1] (⟨1, "SELL", 99, none, ""⟩ :: [sellSig2])
      = matchLoop 10000 [buySig1] [sellSig2]
    ∧ (mkTrade buySig1 sellSig2 10000).buy_timestamp
        < (mkTrade buySig1 sellSig2 10000).sell_timestamp := by
  have hmem : mkTrade buySig1 sellSig2 10000 ∈ match_trades 10000 [buySig1] [sellSig2] := by
    rw [match_trades_single]
    exact List.mem_singleton_self _
  exact ⟨(greedy_pairing 10000 [buySig1] [sellSig2]).1 10000 buySig1 ⟨1, "SELL", 99, none, ""⟩
      [] [sellSig2] (by decide),
    (greedy_pairing 10000 [buySig1] [sellSig2]).2.1 _ hmem⟩

/-- C9. Capital-chain invariant of the matcher: every trade satisfies
`capital_after = capital_before + pnl`, has at least one share, and its BUY
is strictly before its SELL; the first trade starts from the initial
capital; and each trade starts from its predecessor's `capital_after`. -/
theorem capital_chain_invariant (initial_capital : ℚ) (buy_signals sell_signals : List Signal) :
    (∀ t ∈ match_trades initial_capital buy_signals sell_signals,
        t.capital_after = t.capital_before + t.pnl ∧ (1 : ℚ) ≤ t.quantity
          ∧ t.buy_timestamp < t.sell_timestamp)
    ∧ (∀ t, (match_trades initial_capital buy_signals sell_signals).head? = some t →
        t.capital_before = initial_capital)
    ∧ List.Chain' (fun a b => b.capital_before = a.capital_after)
        (match_trades initial_capital buy_signals sell_signals) := by
  refine ⟨?_, ?_, ?_⟩
  · intro t ht
    exact matchLoop_mem (sortByTimestamp sell_signals) (sortByTimestamp buy_signals)
      initial_capital t ht
  · intro t ht
    exact matchLoop_head_capital (sortByTimestamp sell_signals) (sortByTimestamp buy_signals)
      initial_capital t ht
  · exact matchLoop_chain (sortByTimestamp sell_signals) (sortByTimestamp buy_signals)
      initial_capital

/-- C9 witness: the invariant instantiated on the concrete single matched
trade. -/
theorem capital_chain_invariant_witness :
    (mkTrade buySig1 sellSig2 10000).capital_after
      = (mkTrade buySig1 sellSig2 10000).capital_before + (mkTrade buySig1 sellSig2 10000).pnl
    ∧ (1 : ℚ) ≤ (mkTrade buySig1 sellSig2 10000).quantity
    ∧ (mkTrade buySig1 sellSig2 10000).capital_before = 10000 := by
  have hmem : mkTrade buySig1 sellSig2 10000 ∈ match_trades 10000 [buySig1] [sellSig2] := by
    rw [match_trades_single]
    exact List.mem_singleton_self _
  have hhead : (match_trades 10000 [buySig1] [sellSig2]).head?
      = some (mkTrade buySig1 sellSig2 10000) := by
    rw [match_trades_single]
    rfl
  exact ⟨((capital_chain_invariant 10000 [buySig1] [sellSig2]).1 _ hmem).1,
    ((capital_chain_invariant 10000 [buySig1] [sellSig2]).1 _ hmem).2.1,
    (capital_chain_invariant 10000 [buySig1] [sellSig2]).2.1 _ hhead⟩

/-! ## Field lemmas for `calculate` -/

theorem calculate_metrics_trades (c : ℚ) (T : List Trade) (bc sc : Nat) :
    (calculate_metrics c T bc sc).trades = T := by
  by_cases h : T = []
  · simp [calculate_metrics, h]
  · simp [calculate_metrics, h]

theorem calculate_metrics_total_pnl (c : ℚ) (T : List Trade) (bc sc : Nat) (h : T ≠ []) :
    (calculate_metrics c T bc sc).total_pnl = (T.map (fun t => t.pnl)).sum := by
  rw [calculate_metrics, if_neg h]

theorem calculate_trades (c : ℚ) (signals : List Signal) (market_data : List Bar)
    (h : signals.isEmpty = false) :
    (calculate c signals market_data).trades
      = match_trades c (signals.filter isBuySignal) (signals.filter isSellSignal) := by
  rw [calculate, if_neg (by simp [h])]
  exact calculate_metrics_trades c _ _ _

theorem calculate_open_position (c : ℚ) (signals : List Signal) (market_data : List Bar)
    (h : signals.isEmpty = false) :
    (calculate c signals market_data).open_position
      = openPositionOf (signals.filter isBuySignal) (signals.filter isSellSignal) market_data := by
  rw [calculate, if_neg (by simp [h])]

theorem calculate_equity_curve (c : ℚ) (signals : List Signal) (market_data : List Bar)
    (h : signals.isEmpty = false) :
    (calculate c signals market_data).equity_curve
      = build_equity_curve c
          (match_trades c (signals.filter isBuySignal) (signals.filter isSellSignal))
          market_data := by
  rw [calculate, if_neg (by simp [h])]

theorem calculate_total_pnl (c : ℚ) (signals : List Signal) (market_data : List Bar)
    (h : signals.isEmpty = false) :
    (calculate c signals market_data).total_pnl
      = (calculate_metrics c
          (match_trades c (signals.filter isBuySignal) (signals.filter isSellSignal))
          (signals.filter isBuySignal).length (signals.filter isSellSignal).length).total_pnl := by
  rw [calculate, if_neg (by simp [h])]

/-! ## Equity-curve lemmas -/

theorem getLast?_cons_of_ne_nil {α : Type} (x : α) (l : List α) (h : l ≠ []) :
    (x :: l).getLast? = l.getLast? := by
  cases l with
  | nil => exact absurd rfl h
  | cons b bs => rw [List.getLast?_cons_cons]

theorem tradePoints_snd : ∀ (ts : List Trade) (e : ℚ),
    (tradePoints e ts).2 = e + (ts.map (fun t => t.pnl)).sum := by
  intro ts
  induction ts with
  | nil => intro e; simp [tradePoints]
  | cons t ts ih =>
    intro e
    simp only [tradePoints, List.map_cons, List.sum_cons, ih (e + t.pnl)]
    ring

theorem tradePoints_ne_nil (e : ℚ) (t : Trade) (ts : List Trade) :
    (tradePoints e (t :: ts)).1 ≠ [] := by
  simp [tradePoints]

theorem tradePoints_getLast_value : ∀ (ts : List Trade) (e : ℚ), ts ≠ [] →
    ((tradePoints e ts).1).getLast?.map (fun p => p.portfolioValue)
      = some ((tradePoints e ts).2) := by
  intro ts
  induction ts with
  | nil => intro e h; exact absurd rfl h
  | cons t ts ih =>
    intro e _
    cases ts with
    | nil => simp [tradePoints]
    | cons t2 ts2 =>
      have h2 := ih (e + t.pnl) (List.cons_ne_nil t2 ts2)
      show ((⟨t.buy_timestamp, e, "buy"⟩ :: ⟨t.sell_timestamp, e + t.pnl, "sell"⟩ ::
          (tradePoints (e + t.pnl) (t2 :: ts2)).1).getLast?.map (fun p => p.portfolioValue))
        = some ((tradePoints (e + t.pnl) (t2 :: ts2)).2)
      rw [List.getLast?_cons_cons,
        getLast?_cons_of_ne_nil _ _ (tradePoints_ne_nil (e + t.pnl) t2 ts2)]
      exact h2

theorem build_equity_curve_facts (c : ℚ) (t : Trade) (ts : List Trade)
    (b0 : Bar) (brest : List Bar) :
    (build_equity_curve c (t :: ts) (b0 :: brest)).head?
      = some ⟨b0.timestamp, c, "initial"⟩
    ∧ (build_equity_curve c (t :: ts) (b0 :: brest)).getLast?.map
        (fun p => p.portfolioValue)
      = some (c + ((t :: ts).map (fun tr => tr.pnl)).sum) := by
  rw [build_equity_curve]
  split
  · constructor
    · rw [List.cons_append, List.head?_cons]
    · rw [List.getLast?_append]
      simp only [List.getLast?_singleton, Option.or_some, Option.map_some]
      rw [tradePoints_snd]
      rfl
  · constructor
    · rw [List.head?_cons]
    · rw [getLast?_cons_of_ne_nil _ _ (tradePoints_ne_nil c t ts)]
      rw [tradePoints_getLast_value (t :: ts) c (List.cons_ne_nil t ts), tradePoints_snd]

/-! ## C6, C8, C10 -/

/-- C6 counterexample: with an empty signal list the source returns
`_empty_performance`, whose `equity_curve` is the empty list — it does not
contain the initial point (nor a final one), even though the two bars span
two distinct timestamps. -/
theorem empty_signals_counterexample :
    (calculate 10000 [] twoBars).equity_curve = []
    ∧ (⟨1, 10000, "initial"⟩ : EquityPoint) ∉ (calculate 10000 [] twoBars).equity_curve := by
  have h : (calculate 10000 [] twoBars).equity_curve = [] := rfl
  exact ⟨h, by rw [h]; exact List.not_mem_nil _⟩

/-- C6 (amended). `calculate` with an empty signal list does not fail and
returns the fixed empty report for every bar list: zero trades, zero total
return, and an empty equity curve containing no points at all (in
particular no initial point). -/
theorem empty_signals_empty_report (initial_capital : ℚ) (bars : List Bar) :
    calculate initial_capital [] bars = empty_performance
    ∧ (calculate initial_capital [] bars).total_trades = 0
    ∧ (calculate initial_capital [] bars).total_return = 0
    ∧ (calculate initial_capital [] bars).equity_curve = [] :=
  ⟨rfl, rfl, rfl, rfl⟩

/-- Signals with BUYs out of emission order: BUY t=5 price 100, then
BUY t=1 price 50, then SELL t=10 price 200. -/
def sigsMixed : List Signal :=
  [⟨5, "BUY", 100, none, ""⟩, ⟨1, "BUY", 50, none, ""⟩, ⟨10, "SELL", 200, none, ""⟩]

/-- C8 counterexample: with BUYs emitted out of timestamp order, the
reported open position is the last *emitted* BUY (t=1, price 50), which was
in fact matched into the only trade, while the genuinely unmatched BUY
(t=5, price 100) is not reported. -/
theorem open_position_counterexample :
    ((calculate 10000 sigsMixed twoBars).open_position.map
        (fun p => (p.entry_timestamp, p.entry_price))) = some (1, 50)
    ∧ (calculate 10000 sigsMixed twoBars).trades.map
        (fun t => (t.buy_timestamp, t.buy_price)) = [(1, 50)]
    ∧ (5, (100 : ℚ)) ∈ (sigsMixed.filter isBuySignal).map (fun s => (s.timestamp, s.price))
    ∧ (5, (100 : ℚ)) ∉ (calculate 10000 sigsMixed twoBars).trades.map
        (fun t => (t.buy_timestamp, t.buy_price)) := by
  with_unfolding_all decide

/-- C8 (amended). Whenever the BUY count strictly exceeds the SELL count,
`calculate` reports the last BUY *in emission order* (`buy_signals[-1]`) as
the open position, with unrealized P&L against the last bar's close (or the
BUY's own price when no bars are supplied); otherwise — BUY count not
exceeding SELL count, including the empty-signal report — `open_position`
is empty; there are at most as many trades as SELLs (so some BUY is indeed
unmatched), and when the BUY signals are emitted in timestamp order the
matched BUYs are exactly the first `n` of them — making the reported last
BUY an unmatched one. -/
theorem open_position_last_listed_buy (initial_capital : ℚ) (signals : List Signal)
    (market_data : List Bar) :
    (∀ last_buy : Signal, (signals.filter isBuySignal).getLast? = some last_buy →
      (signals.filter isSellSignal).length < (signals.filter isBuySignal).length →
      (calculate initial_capital signals market_data).open_position
        = some { entry_timestamp := last_buy.timestamp
                 entry_price := last_buy.price
                 current_price := match market_data.getLast? with
                   | some lastBar => lastBar.close
                   | none => last_buy.price
                 unrealized_pnl := ((match market_data.getLast? with
                   | some lastBar => lastBar.close
                   | none => last_buy.price) - last_buy.price) * last_buy.quantity.getD 1
                 unrealized_pnl_percent := ((match market_data.getLast? with
                   | some lastBar => lastBar.close
                   | none => last_buy.price) - last_buy.price) / last_buy.price * 100
                 reason := last_buy.reason })
    ∧ (¬ (signals.filter isSellSignal).length < (signals.filter isBuySignal).length →
        (calculate initial_capital signals market_data).open_position = none)
    ∧ (calculate initial_capital signals market_data).trades.length
        ≤ (signals.filter isSellSignal).length
    ∧ (List.Sorted byTimestamp (signals.filter isBuySignal) →
        (calculate initial_capital signals market_data).trades.map tradeBuyKey
          = ((signals.filter isBuySignal).take
              (calculate initial_capital signals market_data).trades.length).map sigKey) := by
  cases signals with
  | nil =>
    refine ⟨?_, ?_, ?_, ?_⟩
    · intro last_buy hlast
      rw [List.filter_nil] at hlast
      cases hlast
    · intro _
      rfl
    · exact Nat.zero_le _
    · intro _
      rfl
  | cons a l =>
    have hne : (a :: l).isEmpty = false := rfl
    refine ⟨?_, ?_, ?_, ?_⟩
    · intro last_buy hlast hcount
      rw [calculate_open_position initial_capital (a :: l) market_data hne, openPositionOf,
        if_pos hcount, hlast]
    · intro hcount
      rw [calculate_open_position initial_capital (a :: l) market_data hne, openPositionOf,
        if_neg hcount]
    · rw [calculate_trades initial_capital (a :: l) market_data hne]
      calc (match_trades initial_capital ((a :: l).filter isBuySignal)
            ((a :: l).filter isSellSignal)).length
          ≤ (sortByTimestamp ((a :: l).filter isSellSignal)).length :=
            matchLoop_length_le _ _ _
        _ = ((a :: l).filter isSellSignal).length :=
            (List.perm_insertionSort byTimestamp _).length_eq
    · intro hsorted
      rw [calculate_trades initial_capital (a :: l) market_data hne]
      simp only [match_trades, sortByTimestamp]
      rw [List.Sorted.insertionSort_eq hsorted]
      exact matchLoop_buy_keys _ _ _

/-- Signals with BUYs in timestamp order and one unmatched trailing BUY. -/
def sigsSortedBuys : List Signal :=
  [⟨1, "BUY", 50, none, ""⟩, ⟨10, "SELL", 200, none, ""⟩, ⟨12, "BUY", 80, some 2, "r"⟩]

/-- C8 witness: the amended statement on a concrete input with sorted
BUYs; the trailing BUY (t=12, price 80, quantity 2) is reported against
the last bar close 110; on a balanced input (one BUY, one SELL) no open
position is reported. -/
theorem open_position_last_listed_buy_witness :
    (calculate 10000 sigsSortedBuys twoBars).open_position
      = some { entry_timestamp := 12, entry_price := 80, current_price := 110,
               unrealized_pnl := ((110 : ℚ) - 80) * 2,
               unrealized_pnl_percent := ((110 : ℚ) - 80) / 80 * 100, reason := "r" }
    ∧ (calculate 10000 [buySig1, sellSig2] twoBars).open_position = none
    ∧ (calculate 10000 sigsSortedBuys twoBars).trades.length ≤ 1
    ∧ (calculate 10000 sigsSortedBuys twoBars).trades.map tradeBuyKey
        = ((sigsSortedBuys.filter isBuySignal).take
            (calculate 10000 sigsSortedBuys twoBars).trades.length).map sigKey := by
  have h := open_position_last_listed_buy 10000 sigsSortedBuys twoBars
  have hb := open_position_last_listed_buy 10000 [buySig1, sellSig2] twoBars
  have hlen : (sigsSortedBuys.filter isSellSignal).length = 1 := by
    with_unfolding_all decide
  refine ⟨h.1 ⟨12, "BUY", 80, some 2, "r"⟩ (by with_unfolding_all decide)
      (by with_unfolding_all decide),
    hb.2.1 (by with_unfolding_all decide), ?_,
    h.2.2.2 (by with_unfolding_all decide)⟩
  rw [← hlen]
  exact h.2.2.1

/-- C10. Equity-curve consistency: whenever the bar list is non-empty and
at least one trade was matched, the curve starts with the `"initial"` point
at the first bar's timestamp carrying the initial capital, the last point's
portfolio value equals the initial capital plus the sum of all trade P&L,
and that sum is exactly the report's `total_pnl`. -/
theorem equity_curve_consistency (initial_capital : ℚ) (signals : List Signal)
    (b0 : Bar) (brest : List Bar)
    (htr : (calculate initial_capital signals (b0 :: brest)).trades ≠ []) :
    (calculate initial_capital signals (b0 :: brest)).equity_curve.head?
      = some ⟨b0.timestamp, initial_capital, "initial"⟩
    ∧ (calculate initial_capital signals (b0 :: brest)).equity_curve.getLast?.map
        (fun p => p.portfolioValue)
      = some (initial_capital
          + ((calculate initial_capital signals (b0 :: brest)).trades.map
              (fun t => t.pnl)).sum)
    ∧ (calculate initial_capital signals (b0 :: brest)).total_pnl
      = ((calculate initial_capital signals (b0 :: brest)).trades.map (fun t => t.pnl)).sum := by
  have hne : signals.isEmpty = false := by
    cases hs : signals with
    | nil =>
      exfalso
      apply htr
      rw [hs]
      rfl
    | cons a l => rfl
  have htrades := calculate_trades initial_capital signals (b0 :: brest) hne
  have hTne : match_trades initial_capital (signals.filter isBuySignal)
      (signals.filter isSellSignal) ≠ [] := by
    rw [← htrades]
    exact htr
  obtain ⟨t, ts, hT⟩ : ∃ t ts, match_trades initial_capital (signals.filter isBuySignal)
      (signals.filter isSellSignal) = t :: ts := by
    cases hc : match_trades initial_capital (signals.filter isBuySignal)
        (signals.filter isSellSignal) with
    | nil => exact absurd hc hTne
    | cons t ts => exact ⟨t, ts, rfl⟩
  have hcurve := calculate_equity_curve initial_capital signals (b0 :: brest) hne
  have hfacts := build_equity_curve_facts initial_capital t ts b0 brest
  refine ⟨?_, ?_, ?_⟩
  · rw [hcurve, hT]
    exact hfacts.1
  · rw [hcurve, htrades, hT]
    exact hfacts.2
  · rw [calculate_total_pnl initial_capital signals (b0 :: brest) hne, htrades, hT]
    exact calculate_metrics_total_pnl initial_capital (t :: ts) _ _ (List.cons_ne_nil t ts)

/-- C10 witness: the consistency facts on the concrete one-trade input. -/
theorem equity_curve_consistency_witness :
    (calculate 10000 [buySig1, sellSig2] twoBars).equity_curve.head?
      = some ⟨1, 10000, "initial"⟩
    ∧ (calculate 10000 [buySig1, sellSig2] twoBars).equity_curve.getLast?.map
        (fun p => p.portfolioValue)
      = some (10000
          + ((calculate 10000 [buySig1, sellSig2] twoBars).trades.map (fun t => t.pnl)).sum)
    ∧ (calculate 10000 [buySig1, sellSig2] twoBars).total_pnl
      = ((calculate 10000 [buySig1, sellSig2] twoBars).trades.map (fun t => t.pnl)).sum := by
  have h := equity_curve_consistency 10000 [buySig1, sellSig2]
    ⟨1, 100, 100, 100, 100, 0⟩ [⟨2, 110, 110, 110, 110, 0⟩] (by with_unfolding_all decide)
  exact h

/-! ## Scan decomposition lemmas (validator) -/

theorem nameStep_decomp (acc : List String × List String) (nm : String) :
    nameStep acc nm = (acc.1 ++ (nameStep ([], []) nm).1, acc.2 ++ (nameStep ([], []) nm).2) := by
  unfold nameStep
  split_ifs <;> simp

theorem namesFold_decomp : ∀ (names : List String) (acc : List String × List String),
    names.foldl nameStep acc
      = (acc.1 ++ (names.foldl nameStep ([], [])).1, acc.2 ++ (names.foldl nameStep ([], [])).2) := by
  intro names
  induction names with
  | nil => intro acc; simp
  | cons nm names ih =>
    intro acc
    rw [List.foldl_cons, List.foldl_cons, ih (nameStep acc nm), ih (nameStep ([], []) nm),
      nameStep_decomp acc nm]
    simp [List.append_assoc]

theorem scanStep_decomp (acc : List String × List String) (n : PyNode) :
    scanStep acc n = (acc.1 ++ (scanStep ([], []) n).1, acc.2 ++ (scanStep ([], []) n).2) := by
  cases n with
  | importNames names => exact namesFold_decomp names acc
  | importFrom module =>
    cases module with
    | some m =>
      show (if m ∈ FORBIDDEN_IMPORTS then _ else _) = _
      split_ifs <;> simp_all [scanStep]
    | none => simp [scanStep]
  | callName func =>
    cases func with
    | some f =>
      show (if f ∈ FORBIDDEN_FUNCTIONS then _ else _) = _
      split_ifs <;> simp_all [scanStep]
    | none => simp [scanStep]
  | functionDef name numArgs => simp [scanStep]
  | other => simp [scanStep]

theorem scanFold_decomp : ∀ (nodes : List PyNode) (acc : List String × List String),
    nodes.foldl scanStep acc
      = (acc.1 ++ (importCallScan nodes).1, acc.2 ++ (importCallScan nodes).2) := by
  intro nodes
  induction nodes with
  | nil => intro acc; simp [importCallScan]
  | cons n nodes ih =>
    intro acc
    rw [List.foldl_cons, ih (scanStep acc n), scanStep_decomp acc n]
    have : importCallScan (n :: nodes) = nodes.foldl scanStep (scanStep ([], []) n) := rfl
    rw [this, ih (scanStep ([], []) n)]
    simp [List.append_assoc]

theorem mem_nameFold_err : ∀ (names : List String) (nm : String), nm ∈ names →
    nm ∈ FORBIDDEN_IMPORTS →
    ("Forbidden import: " ++ nm) ∈ (names.foldl nameStep ([], [])).1 := by
  intro names
  induction names with
  | nil => intro nm h; cases h
  | cons nm' names ih =>
    intro nm hmem hforb
    rw [List.foldl_cons, namesFold_decomp names (nameStep ([], []) nm')]
    rcases List.mem_cons.mp hmem with rfl | htail
    · refine List.mem_append_left _ ?_
      rw [nameStep, if_pos hforb]
      simp
    · exact List.mem_append_right _ (ih nm htail hforb)

theorem mem_scan_importNames : ∀ (nodes : List PyNode) (names : List String) (nm : String),
    PyNode.importNames names ∈ nodes → nm ∈ names → nm ∈ FORBIDDEN_IMPORTS →
    ("Forbidden import: " ++ nm) ∈ (importCallScan nodes).1 := by
  intro nodes
  induction nodes with
  | nil => intro names nm h; cases h
  | cons n nodes ih =>
    intro names nm hmem hnm hforb
    have hdec : importCallScan (n :: nodes)
        = ((scanStep ([], []) n).1 ++ (importCallScan nodes).1,
           (scanStep ([], []) n).2 ++ (importCallScan nodes).2) := by
      show nodes.foldl scanStep (scanStep ([], []) n) = _
      exact scanFold_decomp nodes (scanStep ([], []) n)
    rcases List.mem_cons.mp hmem with rfl | htail
    · rw [hdec]
      exact List.mem_append_left _ (mem_nameFold_err names nm hnm hforb)
    · rw [hdec]
      exact List.mem_append_right _ (ih names nm htail hnm hforb)

theorem mem_scan_importFrom : ∀ (nodes : List PyNode) (m : String),
    PyNode.importFrom (some m) ∈ nodes → m ∈ FORBIDDEN_IMPORTS →
    ("Forbidden import: " ++ m) ∈ (importCallScan nodes).1 := by
  intro nodes
  induction nodes with
  | nil => intro m h; cases h
  | cons n nodes ih =>
    intro m hmem hforb
    have hdec : importCallScan (n :: nodes)
        = ((scanStep ([], []) n).1 ++ (importCallScan nodes).1,
           (scanStep ([], []) n).2 ++ (importCallScan nodes).2) := by
      show nodes.foldl scanStep (scanStep ([], []) n) = _
      exact scanFold_decomp nodes (scanStep ([], []) n)
    rcases List.mem_cons.mp hmem with rfl | htail
    · rw [hdec]
      refine List.mem_append_left _ ?_
      show ("Forbidden import: " ++ m)
        ∈ (if m ∈ FORBIDDEN_IMPORTS then (([] : List String) ++ ["Forbidden import: " ++ m], ([] : List String))
           else if m ∈ ALLOWED_IMPORTS then (([] : List String), ([] : List String))
           else (([] : List String), ([] : List String) ++ ["Unrecognized import: " ++ m])).1
      rw [if_pos hforb]
      simp
    · rw [hdec]
      exact List.mem_append_right _ (ih m htail hforb)

theorem mem_scan_callName : ∀ (nodes : List PyNode) (f : String),
    PyNode.callName (some f) ∈ nodes → f ∈ FORBIDDEN_FUNCTIONS →
    ("Forbidden function: " ++ f ++ "()") ∈ (importCallScan nodes).1 := by
  intro nodes
  induction nodes with
  | nil => intro f h; cases h
  | cons n nodes ih =>
    intro f hmem hforb
    have hdec : importCallScan (n :: nodes)
        = ((scanStep ([], []) n).1 ++ (importCallScan nodes).1,
           (scanStep ([], []) n).2 ++ (importCallScan nodes).2) := by
      show nodes.foldl scanStep (scanStep ([], []) n) = _
      exact scanFold_decomp nodes (scanStep ([], []) n)
    rcases List.mem_cons.mp hmem with rfl | htail
    · rw [hdec]
      refine List.mem_append_left _ ?_
      show ("Forbidden function: " ++ f ++ "()")
        ∈ (if f ∈ FORBIDDEN_FUNCTIONS
             then (([] : List String) ++ ["Forbidden function: " ++ f ++ "()"], ([] : List String))
           else (([] : List String), ([] : List String))).1
      rw [if_pos hforb]
      simp
    · rw [hdec]
      exact List.mem_append_right _ (ih f htail hforb)

/-- Any error produced by the first walk appears in the final error list and
forces `valid = false`. -/
theorem validate_error_of_scan (nodes : List PyNode) (code err : String)
    (h : err ∈ (importCallScan nodes).1) :
    err ∈ (validate_python (.tree nodes code)).errors
    ∧ (validate_python (.tree nodes code)).valid = false := by
  have hmem : err ∈ (validate_python (.tree nodes code)).errors := by
    show err ∈ (importCallScan nodes).1 ++ (strategyScan nodes).1 ++ _
    exact List.mem_append_left _ (List.mem_append_left _ h)
  refine ⟨hmem, ?_⟩
  have hne : (validate_python (.tree nodes code)).errors ≠ [] := List.ne_nil_of_mem hmem
  show ((validate_python (.tree nodes code)).errors.length == 0) = false
  cases herr : (validate_python (.tree nodes code)).errors with
  | nil => exact absurd herr hne
  | cons e rest => rfl

/-- C7. Forbidden-capability rejection: a source whose tree contains an
`import` of a forbidden module, a `from … import` of a forbidden module, or
a call to a forbidden function by name, validates to `valid = false` with an
error naming the offender; and for every parse result, `valid` is true if
and only if the error list is empty. -/
theorem forbidden_capability_rejection :
    (∀ (nodes : List PyNode) (code : String) (names : List String) (nm : String),
        PyNode.importNames names ∈ nodes → nm ∈ names → nm ∈ FORBIDDEN_IMPORTS →
        ("Forbidden import: " ++ nm) ∈ (validate_python (.tree nodes code)).errors
          ∧ (validate_python (.tree nodes code)).valid = false)
    ∧ (∀ (nodes : List PyNode) (code m : String),
        PyNode.importFrom (some m) ∈ nodes → m ∈ FORBIDDEN_IMPORTS →
        ("Forbidden import: " ++ m) ∈ (validate_python (.tree nodes code)).errors
          ∧ (validate_python (.tree nodes code)).valid = false)
    ∧ (∀ (nodes : List PyNode) (code f : String),
        PyNode.callName (some f) ∈ nodes → f ∈ FORBIDDEN_FUNCTIONS →
        ("Forbidden function: " ++ f ++ "()") ∈ (validate_python (.tree nodes code)).errors
          ∧ (validate_python (.tree nodes code)).valid = false)
    ∧ (∀ parsed : ParsedSource,
        (validate_python parsed).valid = true ↔ (validate_python parsed).errors = []) := by
  refine ⟨?_, ?_, ?_, ?_⟩
  · intro nodes code names nm hmem hnm hforb
    exact validate_error_of_scan nodes code _ (mem_scan_importNames nodes names nm hmem hnm hforb)
  · intro nodes code m hmem hforb
    exact validate_error_of_scan nodes code _ (mem_scan_importFrom nodes m hmem hforb)
  · intro nodes code f hmem hforb
    exact validate_error_of_scan nodes code _ (mem_scan_callName nodes f hmem hforb)
  · intro parsed
    cases parsed with
    | syntaxError msg =>
      constructor
      · intro h
        exact absurd h (by simp [validate_python])
      · intro h
        exact absurd h (by simp [validate_python])
    | tree nodes code =>
      show ((validate_python (.tree nodes code)).errors.length == 0) = true ↔ _
      rw [Nat.beq_eq_true_eq, List.length_eq_zero]

/-- A tree importing the forbidden module `os` alongside a well-formed
`strategy` definition. -/
def osImportNodes : List PyNode :=
  [PyNode.importNames ["os"], PyNode.functionDef "strategy" 1]

/-- C7 witness: the forbidden `import os` is flagged by name and fails
validation on a concrete tree, and the valid-iff-no-errors equivalence
instantiated on a clean concrete tree. -/
theorem forbidden_capability_rejection_witness :
    ("Forbidden import: " ++ "os") ∈ (validate_python (.tree osImportNodes "x")).errors
    ∧ (validate_python (.tree osImportNodes "x")).valid = false
    ∧ ((validate_python (.tree [PyNode.functionDef "strategy" 1] "x")).valid = true
        ↔ (validate_python (.tree [PyNode.functionDef "strategy" 1] "x")).errors = []) := by
  have h := forbidden_capability_rejection.1 osImportNodes "x" ["os"] "os"
    (by decide) (by decide) (by decide)
  exact ⟨h.1, h.2, forbidden_capability_rejection.2.2.2 _⟩

/-! ## String helper lemmas -/

theorem charsStartWith_append : ∀ (l r : List Char), charsStartWith (l ++ r) l = true := by
  intro l
  induction l with
  | nil => intro r; rw [List.nil_append]; cases r <;> rfl
  | cons a l ih => intro r; simp [charsStartWith, ih r]

theorem charsContain_of_startsWith :
    ∀ (h n : List Char), charsStartWith h n = true → charsContain h n = true := by
  intro h n hs
  cases h with
  | nil =>
    cases n with
    | nil => rfl
    | cons b bs => exact absurd hs (by simp [charsStartWith])
  | cons a as => simp [charsContain, hs]

theorem charsContain_append_left :
    ∀ (pre t n : List Char), charsContain t n = true → charsContain (pre ++ t) n = true := by
  intro pre
  induction pre with
  | nil => intro t n h; simpa using h
  | cons a as ih => intro t n h; simp [charsContain, ih t n h]

theorem charsContain_middle (pre mid post : List Char) :
    charsContain (pre ++ (mid ++ post)) mid = true :=
  charsContain_append_left pre _ _ (charsContain_of_startsWith _ _ (charsStartWith_append mid post))

theorem timeoutMessage_contains_deadline (t : Nat) :
    strContains (timeoutMessage t) (toString t) = true := by
  show charsContain ("Execution timeout (" ++ toString t
    ++ "s) - strategy was forcefully terminated").data (toString t).data = true
  rw [String.data_append, String.data_append, List.append_assoc]
  exact charsContain_middle _ _ _

theorem timeoutMessage_contains_timeout (t : Nat) :
    strContains (timeoutMessage t) "timeout" = true := by
  show charsContain ("Execution timeout (" ++ toString t
    ++ "s) - strategy was forcefully terminated").data "timeout".data = true
  rw [String.data_append, String.data_append]
  have hx : ("Execution timeout (").data
      = "Execution ".data ++ ("timeout".data ++ " (".data) := by decide
  rw [hx]
  simp only [List.append_assoc]
  exact charsContain_middle _ _ _

theorem ne_empty_of_length_pos (s : String) (h : 0 < s.length) : s ≠ "" := by
  intro he
  subst he
  simp at h

theorem append_ne_empty_left (a b : String) (h : 0 < a.length) : a ++ b ≠ "" :=
  ne_empty_of_length_pos _ (by rw [String.length_append]; omega)

theorem timeoutMessage_ne_empty (t : Nat) : timeoutMessage t ≠ "" := by
  show ("Execution timeout (" ++ toString t) ++ "s) - strategy was forcefully terminated" ≠ ""
  refine append_ne_empty_left _ _ ?_
  rw [String.length_append]
  have h19 : 0 < ("Execution timeout (").length := by decide
  omega

/-! ## C1, C2, C3 -/

/-- C1. Compile-cache behavior of the source: `_execute_strategy_in_process`
never inserts the compiled artifact into `code_cache` on a miss (there is
no `code_cache[code_hash] = compiled_code` between lines 58 and 76 of
python_executor.py), so on a miss the cache is returned unchanged, the
compile step runs, and a second call with the same source against the
resulting cache compiles again instead of hitting the cache; the parent's
cache is likewise unchanged by `execute` in every branch (it is handed to
the child by pickling). -/
theorem compile_cache_never_populated {α : Type} (md5 : String → String)
    (compile_restricted : String → CompileOutcome α) (run : α → GuestOutcome)
    (code : String) (code_cache : Cache α)
    (hmiss : cacheLookup code_cache (md5 code) = none) :
    (execute_strategy_in_process md5 compile_restricted run code code_cache).2.1 = code_cache
    ∧ (execute_strategy_in_process md5 compile_restricted run code code_cache).2.2 = true
    ∧ (execute_strategy_in_process md5 compile_restricted run code
        (execute_strategy_in_process md5 compile_restricted run code code_cache).2.1).2.2 = true
    ∧ (∀ (timeout : Nat) (wait : WaitOutcome),
        (execute md5 compile_restricted run code code_cache timeout wait).2.2.2 = code_cache) := by
  have hstep : ∀ cc : Cache α, cacheLookup cc (md5 code) = none →
      (execute_strategy_in_process md5 compile_restricted run code cc).2.1 = cc
        ∧ (execute_strategy_in_process md5 compile_restricted run code cc).2.2 = true := by
    intro cc hm
    cases hcr : compile_restricted code with
    | errors msgs => simp [execute_strategy_in_process, hm, hcr]
    | ok artifact => simp [execute_strategy_in_process, hm, hcr]
  obtain ⟨h1, h2⟩ := hstep code_cache hmiss
  refine ⟨h1, h2, ?_, ?_⟩
  · rw [h1]
    exact (hstep code_cache hmiss).2
  · intro timeout wait
    cases wait <;> rfl

/-- C1 witness: on an empty cache the first and the second execution of the
same source both run the compile step, and no entry is ever added. -/
theorem compile_cache_never_populated_witness :
    cacheLookup ([] : Cache Nat) ((fun _ => "k") "src") = none
    ∧ (execute_strategy_in_process (fun _ => "k") (fun _ => CompileOutcome.ok 0)
        (fun _ => GuestOutcome.ok [] []) "src" ([] : Cache Nat)).2.1 = []
    ∧ (execute_strategy_in_process (fun _ => "k") (fun _ => CompileOutcome.ok 0)
        (fun _ => GuestOutcome.ok [] []) "src" ([] : Cache Nat)).2.2 = true
    ∧ (execute_strategy_in_process (fun _ => "k") (fun _ => CompileOutcome.ok 0)
        (fun _ => GuestOutcome.ok [] []) "src"
        (execute_strategy_in_process (fun _ => "k") (fun _ => CompileOutcome.ok 0)
          (fun _ => GuestOutcome.ok [] []) "src" ([] : Cache Nat)).2.1).2.2 = true := by
  have h := compile_cache_never_populated (α := Nat) (fun _ => "k")
    (fun _ => CompileOutcome.ok 0) (fun _ => GuestOutcome.ok [] []) "src" [] rfl
  exact ⟨rfl, h.1, h.2.1, h.2.2.1⟩

/-- C2. Timeout enforcement: when the isolation process is still alive at
the deadline, `execute` issues `terminate()` first, then after the grace
join issues an unconditional `kill()` exactly when the process survived the
graceful termination, ends with the process not running, and returns
`success = false` with empty signals and indicators and an error string that
carries the "timeout" classification and the deadline value. -/
theorem timeout_branch_kills_and_reports {α : Type} (md5 : String → String)
    (compile_restricted : String → CompileOutcome α) (run : α → GuestOutcome)
    (code : String) (code_cache : Cache α) (timeout : Nat) (survives : Bool) :
    (execute md5 compile_restricted run code code_cache timeout
        (.stillAliveAtTimeout survives)).1.success = false
    ∧ (execute md5 compile_restricted run code code_cache timeout
        (.stillAliveAtTimeout survives)).1.signals = []
    ∧ (execute md5 compile_restricted run code code_cache timeout
        (.stillAliveAtTimeout survives)).1.indicators = []
    ∧ (execute md5 compile_restricted run code code_cache timeout
        (.stillAliveAtTimeout survives)).1.error = some (timeoutMessage timeout)
    ∧ strContains (timeoutMessage timeout) "timeout" = true
    ∧ strContains (timeoutMessage timeout) (toString timeout) = true
    ∧ ((execute md5 compile_restricted run code code_cache timeout
        (.stillAliveAtTimeout survives)).2.2.1).head? = some KillAction.terminate
    ∧ (survives = true →
        (execute md5 compile_restricted run code code_cache timeout
          (.stillAliveAtTimeout survives)).2.2.1
        = [KillAction.terminate, KillAction.joinGrace, KillAction.kill, KillAction.joinFinal])
    ∧ (survives = false →
        (execute md5 compile_restricted run code code_cache timeout
          (.stillAliveAtTimeout survives)).2.2.1
        = [KillAction.terminate, KillAction.joinGrace])
    ∧ (execute md5 compile_restricted run code code_cache timeout
        (.stillAliveAtTimeout survives)).2.1 ≠ ProcState.running := by
  cases survives with
  | false =>
    exact ⟨rfl, rfl, rfl, rfl, timeoutMessage_contains_timeout timeout,
      timeoutMessage_contains_deadline timeout, rfl,
      fun h => absurd h (by decide), fun _ => rfl, fun hk => ProcState.noConfusion hk⟩
  | true =>
    exact ⟨rfl, rfl, rfl, rfl, timeoutMessage_contains_timeout timeout,
      timeoutMessage_contains_deadline timeout, rfl,
      fun _ => rfl, fun h => absurd h (by decide), fun hk => ProcState.noConfusion hk⟩

/-- C2 witness: the timeout branch on a concrete surviving process with a
7-second deadline. -/
theorem timeout_branch_kills_and_reports_witness :
    (execute (α := Nat) (fun _ => "k") (fun _ => CompileOutcome.ok 0)
        (fun _ => GuestOutcome.ok [] []) "src" [] 7 (.stillAliveAtTimeout true)).1.error
      = some (timeoutMessage 7)
    ∧ (execute (α := Nat) (fun _ => "k") (fun _ => CompileOutcome.ok 0)
        (fun _ => GuestOutcome.ok [] []) "src" [] 7 (.stillAliveAtTimeout true)).2.2.1
      = [KillAction.terminate, KillAction.joinGrace, KillAction.kill, KillAction.joinFinal]
    ∧ (execute (α := Nat) (fun _ => "k") (fun _ => CompileOutcome.ok 0)
        (fun _ => GuestOutcome.ok [] []) "src" [] 7 (.stillAliveAtTimeout true)).2.1
      ≠ ProcState.running := by
  have h := timeout_branch_kills_and_reports (α := Nat) (fun _ => "k")
    (fun _ => CompileOutcome.ok 0) (fun _ => GuestOutcome.ok [] []) "src" [] 7 true
  exact ⟨h.2.2.2.1, h.2.2.2.2.2.2.2.1 rfl, h.2.2.2.2.2.2.2.2.2⟩

/-- C3. Total failure capture: `execute` always returns a result; whenever
`success` is false — compile diagnostics, missing `strategy`, guest
exception, timeout, a process death without a result, or a parent-side
exception — the result carries a non-empty error string and empty
`signals`/`indicators`; and whenever `success` is true the signals and
indicators are exactly those the guest populated, with no error. -/
theorem execute_total_failure_capture {α : Type} (md5 : String → String)
    (compile_restricted : String → CompileOutcome α) (run : α → GuestOutcome)
    (code : String) (code_cache : Cache α) (timeout : Nat) (wait : WaitOutcome) :
    ((execute md5 compile_restricted run code code_cache timeout wait).1.success = false →
      ∃ e, (execute md5 compile_restricted run code code_cache timeout wait).1.error = some e
        ∧ e ≠ ""
        ∧ (execute md5 compile_restricted run code code_cache timeout wait).1.signals = []
        ∧ (execute md5 compile_restricted run code code_cache timeout wait).1.indicators = [])
    ∧ ((execute md5 compile_restricted run code code_cache timeout wait).1.success = true →
      (execute md5 compile_restricted run code code_cache timeout wait).1.error = none
        ∧ ∃ a sigs inds, run a = GuestOutcome.ok sigs inds
          ∧ (execute md5 compile_restricted run code code_cache timeout wait).1.signals = sigs
          ∧ (execute md5 compile_restricted run code code_cache timeout wait).1.indicators
            = inds) := by
  cases wait with
  | stillAliveAtTimeout s =>
    constructor
    · intro _
      exact ⟨timeoutMessage timeout, rfl, timeoutMessage_ne_empty timeout, rfl, rfl⟩
    · intro h
      exact absurd h (by simp [execute])
  | completedNoResult =>
    constructor
    · intro _
      refine ⟨_, rfl, ?_, rfl, rfl⟩
      exact ne_empty_of_length_pos _ (by decide)
    · intro h
      exact absurd h (by simp [execute])
  | parentError msg =>
    constructor
    · intro _
      refine ⟨_, rfl, ?_, rfl, rfl⟩
      exact append_ne_empty_left "Execution error: " msg (by decide)
    · intro h
      exact absurd h (by simp [execute])
  | completedWithResult =>
    have hrun : ∀ a : α,
        ((runStrategy (run a)).success = false →
          ∃ e, (runStrategy (run a)).error = some e ∧ e ≠ ""
            ∧ (runStrategy (run a)).signals = [] ∧ (runStrategy (run a)).indicators = [])
        ∧ ((runStrategy (run a)).success = true →
          (runStrategy (run a)).error = none
            ∧ ∃ a2 sigs inds, run a2 = GuestOutcome.ok sigs inds
              ∧ (runStrategy (run a)).signals = sigs
              ∧ (runStrategy (run a)).indicators = inds) := by
      intro a
      cases hra : run a with
      | noStrategyFn =>
        refine ⟨fun _ => ⟨_, rfl, ?_, rfl, rfl⟩, fun h => absurd h (by simp [runStrategy])⟩
        exact ne_empty_of_length_pos _ (by decide)
      | runtimeError msg =>
        refine ⟨fun _ => ⟨_, rfl, ?_, rfl, rfl⟩, fun h => absurd h (by simp [runStrategy])⟩
        exact append_ne_empty_left "Execution error: " msg (by decide)
      | ok sigs inds =>
        refine ⟨fun h => absurd h (by simp [runStrategy]), fun _ => ⟨rfl, a, sigs, inds, hra, rfl, rfl⟩⟩
    cases hcl : cacheLookup code_cache (md5 code) with
    | some artifact =>
      have h := hrun artifact
      constructor
      · intro hs
        have hs2 : (runStrategy (run artifact)).success = false := by
          simpa [execute, execute_strategy_in_process, hcl] using hs
        obtain ⟨e, he, hne, hsig, hind⟩ := h.1 hs2
        exact ⟨e, by simp [execute, execute_strategy_in_process, hcl, he],
          hne, by simp [execute, execute_strategy_in_process, hcl, hsig],
          by simp [execute, execute_strategy_in_process, hcl, hind]⟩
      · intro hs
        have hs2 : (runStrategy (run artifact)).success = true := by
          simpa [execute, execute_strategy_in_process, hcl] using hs
        obtain ⟨he, a2, sigs, inds, hra, hsig, hind⟩ := h.2 hs2
        exact ⟨by simp [execute, execute_strategy_in_process, hcl, he],
          a2, sigs, inds, hra,
          by simp [execute, execute_strategy_in_process, hcl, hsig],
          by simp [execute, execute_strategy_in_process, hcl, hind]⟩
    | none =>
      cases hcr : compile_restricted code with
      | errors msgs =>
        constructor
        · intro _
          refine ⟨"Compilation errors: " ++ joinSemicolon msgs,
            by simp [execute, execute_strategy_in_process, hcl, hcr], ?_,
            by simp [execute, execute_strategy_in_process, hcl, hcr],
            by simp [execute, execute_strategy_in_process, hcl, hcr]⟩
          exact append_ne_empty_left "Compilation errors: " (joinSemicolon msgs) (by decide)
        · intro h
          exact absurd h (by simp [execute, execute_strategy_in_process, hcl, hcr])
      | ok artifact =>
        have h := hrun artifact
        constructor
        · intro hs
          have hs2 : (runStrategy (run artifact)).success = false := by
            simpa [execute, execute_strategy_in_process, hcl, hcr] using hs
          obtain ⟨e, he, hne, hsig, hind⟩ := h.1 hs2
          exact ⟨e, by simp [execute, execute_strategy_in_process, hcl, hcr, he],
            hne, by simp [execute, execute_strategy_in_process, hcl, hcr, hsig],
            by simp [execute, execute_strategy_in_process, hcl, hcr, hind]⟩
        · intro hs
          have hs2 : (runStrategy (run artifact)).success = true := by
            simpa [execute, execute_strategy_in_process, hcl, hcr] using hs
          obtain ⟨he, a2, sigs, inds, hra, hsig, hind⟩ := h.2 hs2
          exact ⟨by simp [execute, execute_strategy_in_process, hcl, hcr, he],
            a2, sigs, inds, hra,
            by simp [execute, execute_strategy_in_process, hcl, hcr, hsig],
            by simp [execute, execute_strategy_in_process, hcl, hcr, hind]⟩

/-- C3 witness: the failure shape on a concrete process death without a
result. -/
theorem execute_total_failure_capture_witness :
    (execute (α := Nat) (fun _ => "k") (fun _ => CompileOutcome.ok 0)
        (fun _ => GuestOutcome.ok [] []) "src" [] 5 WaitOutcome.completedNoResult).1.success
      = false
    ∧ ∃ e, (execute (α := Nat) (fun _ => "k") (fun _ => CompileOutcome.ok 0)
        (fun _ => GuestOutcome.ok [] []) "src" [] 5 WaitOutcome.completedNoResult).1.error
        = some e
      ∧ e ≠ ""
      ∧ (execute (α := Nat) (fun _ => "k") (fun _ => CompileOutcome.ok 0)
          (fun _ => GuestOutcome.ok [] []) "src" [] 5 WaitOutcome.completedNoResult).1.signals
        = []
      ∧ (execute (α := Nat) (fun _ => "k") (fun _ => CompileOutcome.ok 0)
          (fun _ => GuestOutcome.ok [] []) "src" [] 5 WaitOutcome.completedNoResult).1.indicators
        = [] := by
  refine ⟨rfl, ?_⟩
  exact (execute_total_failure_capture (α := Nat) (fun _ => "k") (fun _ => CompileOutcome.ok 0)
    (fun _ => GuestOutcome.ok [] []) "src" [] 5 WaitOutcome.completedNoResult).1 rfl

end Strategiz
